import Mathlib

/-!
# Verification of the web-ssh-gateway session-transport core

Shallow embedding of the session transport and reconnection subsystem of
the `web-ssh-gateway` repository (latest server revision, `server.ts`):
the binary frame codec, the per-session output ring buffer, the reconnect
(attach) path, the DATA-frame forwarding path, the AUTH handler with its
capacity check, and the periodic session-expiry sweep.

Buffers are modelled as `List Nat` (one `Nat` per byte); `Buffer`-API
failures that throw in Node (`writeUInt8` / `writeUInt16LE` range errors)
are modelled by `Option`-returning functions.
-/

namespace WebSSH

/-! ## Message types

Numeric tags of the binary wire protocol, mirrored from the `MsgType`
table (`src/lib/ws-protocol.ts`, as mirrored verbatim in the server
revisions). -/

def MsgType.AUTH : Nat := 0x01
def MsgType.RECONNECT : Nat := 0x02
def MsgType.DATA : Nat := 0x03
def MsgType.RESIZE : Nat := 0x04
def MsgType.PING : Nat := 0x05
def MsgType.CONNECTED : Nat := 0x10
def MsgType.RECONNECTED : Nat := 0x11
def MsgType.REPLAY : Nat := 0x12
def MsgType.SSH_DATA : Nat := 0x13
def MsgType.ERROR : Nat := 0x14
def MsgType.DISCONNECTED : Nat := 0x15
def MsgType.SNAPSHOT : Nat := 0x16

/-! ## Frame codec (server.ts: `encodeFrame`, `decodeFrame`) -/

/-- `Buffer.prototype.readUInt8(off)` on the byte-list model. -/
def readUInt8 (raw : List Nat) (off : Nat) : Nat := raw.getD off 0

/-- `Buffer.prototype.readUInt16LE(off)`: little-endian 16-bit read. -/
def readUInt16LE (raw : List Nat) (off : Nat) : Nat :=
  raw.getD off 0 + 256 * raw.getD (off + 1) 0

/-- `encodeFrame(type, payload)` from server.ts:

```ts
const frame = Buffer.allocUnsafe(3 + payload.length)
frame.writeUInt8(type, 0)
frame.writeUInt16LE(payload.length, 1)
payload.copy(frame, 3)
return frame
```

`writeUInt8` throws a `RangeError` for a value outside `[0, 255]` and
`writeUInt16LE` throws for a value outside `[0, 65535]`; the throwing
outcomes are modelled as `none`.  On success the frame is the type byte,
the two little-endian length bytes, then the payload. -/
def encodeFrame (type : Nat) (payload : List Nat) : Option (List Nat) :=
  if type ≤ 255 ∧ payload.length ≤ 65535 then
    some (type :: payload.length % 256 :: payload.length / 256 :: payload)
  else none

/-- Result of `decodeFrame`: a message type and its payload bytes. -/
structure DecodedFrame where
  type : Nat
  payload : List Nat
deriving DecidableEq, Repr

/-- `decodeFrame(raw)` from server.ts — returns `null` (here `none`) on a
short header or a declared payload length exceeding the available bytes:

```ts
if (raw.length < 3) return null
const type   = raw.readUInt8(0)
const payLen = raw.readUInt16LE(1)
if (raw.length < 3 + payLen) return null
const payload = raw.slice(3, 3 + payLen)
return { type, payload }
```
-/
def decodeFrame (raw : List Nat) : Option DecodedFrame :=
  if raw.length < 3 then none
  else if raw.length < 3 + readUInt16LE raw 1 then none
  else some ⟨readUInt8 raw 0, (raw.drop 3).take (readUInt16LE raw 1)⟩

/-! ## Server configuration constants (server.ts, Config section) -/

def SESSION_TIMEOUT_MS : Nat := 300000
def MAX_OUTPUT_BUFFER : Nat := 200 * 1024
def ENABLE_HEADLESS_SNAPSHOT : Bool := false
def MAX_SESSIONS_PER_IP : Nat := 5
def MAX_TOTAL_SESSIONS : Nat := 20

/-! ## Output ring buffer (server.ts: `createSessionState`, `appendOutput`)

The ring-buffer state of a `SessionInternal`: the pre-allocated byte store
`_ringBuf`, the write offset `_ringOffset` and the wrapped flag
`_ringFull`. -/

structure SessionRing where
  ringBuf : List Nat
  ringOffset : Nat
  ringFull : Bool
deriving Repr, DecidableEq

/-- The ring-buffer initialisation in `createSessionState`:
`Buffer.allocUnsafe(MAX_OUTPUT_BUFFER)`, offset 0, not full.
`allocUnsafe` leaves the contents arbitrary; they are modelled as zeros
(the intended read paths never observe bytes that were not written). -/
def createRing : SessionRing :=
  { ringBuf := List.replicate MAX_OUTPUT_BUFFER 0
    ringOffset := 0
    ringFull := false }

/-- One iteration of the `while (src < chunk.length)` loop of
`appendOutput`, applied to the not-yet-copied suffix `rest = chunk[src..]`:

```ts
const space = MAX_OUTPUT_BUFFER - session._ringOffset
const toCopy = Math.min(space, chunk.length - src)
chunk.copy(session._ringBuf, session._ringOffset, src, src + toCopy)
src += toCopy
session._ringOffset = (session._ringOffset + toCopy) % MAX_OUTPUT_BUFFER
if (session._ringOffset === 0) session._ringFull = true
```

Returns the updated ring state and the still-uncopied suffix. -/
def appendStep (s : SessionRing) (rest : List Nat) : SessionRing × List Nat :=
  let space := MAX_OUTPUT_BUFFER - s.ringOffset
  let toCopy := min space rest.length
  let off := (s.ringOffset + toCopy) % MAX_OUTPUT_BUFFER
  (⟨s.ringBuf.take s.ringOffset ++ rest.take toCopy
      ++ s.ringBuf.drop (s.ringOffset + toCopy),
    off,
    if off == 0 then true else s.ringFull⟩,
   rest.drop toCopy)

/-- The whole `while` loop.  The `fuel` argument makes the recursion
structural; `chunk.length` fuel always suffices because every iteration
copies at least one byte while `ringOffset < MAX_OUTPUT_BUFFER`, an
invariant the modulo preserves. -/
def appendLoop : Nat → SessionRing → List Nat → SessionRing
  | _, s, [] => s
  | 0, s, _ :: _ => s
  | fuel + 1, s, b :: t =>
      appendLoop fuel (appendStep s (b :: t)).1 (appendStep s (b :: t)).2

/-- `appendOutput(session, chunk)` from server.ts (ring-buffer part; the
trailing headless-terminal feed is disabled by
`ENABLE_HEADLESS_SNAPSHOT = false`). -/
def appendOutput (s : SessionRing) (chunk : List Nat) : SessionRing :=
  appendLoop chunk.length s chunk

/-- The `outputBuffer` getter installed by `createSessionState`:

```ts
const ringBuf = Buffer.allocUnsafe(MAX_OUTPUT_BUFFER)
const ringOffset = 0
const ringFull = false
return { ..., _ringBuf: ringBuf, _ringOffset: ringOffset, _ringFull: ringFull,
  get outputBuffer(): Buffer {
    if (!ringFull && ringOffset === 0) return Buffer.alloc(0)
    if (!ringFull) return ringBuf.slice(0, ringOffset)
    return Buffer.concat([ringBuf.slice(ringOffset), ringBuf.slice(0, ringOffset)])
  } }
```

The getter closes over the local `const ringOffset = 0` and
`const ringFull = false` of `createSessionState` — not over the mutable
`_ringOffset` / `_ringFull` fields that `appendOutput` updates — so its
branch conditions are fixed at their creation-time values (the captured
`ringBuf` does alias `_ringBuf`, but it is never reached). -/
def outputBuffer (s : SessionRing) : List Nat :=
  let ringOffset : Nat := 0
  let ringFull : Bool := false
  if !ringFull && ringOffset == 0 then []
  else if !ringFull then s.ringBuf.take ringOffset
  else s.ringBuf.drop ringOffset ++ s.ringBuf.take ringOffset

/-- The same getter body read against the live ring state — this is the
getter of the previous server revision (part_004), where the closed-over
`let ringOffset` / `let ringFull` are the variables `appendToBuffer`
mutates, and it is what the `Session` interface documents
(`outputBuffer: Buffer  // getter — reads from ring buffer`). -/
def snapshotRing (s : SessionRing) : List Nat :=
  if !s.ringFull && s.ringOffset == 0 then []
  else if !s.ringFull then s.ringBuf.take s.ringOffset
  else s.ringBuf.drop s.ringOffset ++ s.ringBuf.take s.ringOffset

/-- The last `n` bytes of a byte string (the whole string when it is
shorter than `n`): the reference value for ring-buffer correctness. -/
def lastN (n : Nat) (l : List Nat) : List Nat := l.drop (l.length - n)

/-! ## Reconnect path (server.ts: `attachToSession`) -/

/-- The frames `attachToSession` sends on the freshly attached socket, in
order, as (type, payload) pairs:

```ts
if (session.headlessTerm) { ... ws.send(encodeJsonFrame(MsgType.SNAPSHOT, snapshot)) ... }
else {
  const buf = session.outputBuffer
  if (buf.length > 0) ws.send(encodeFrame(MsgType.REPLAY, buf))
}
ws.send(encodeFrame(MsgType.RECONNECTED))
```

The snapshot branch serialises the headless terminal, which is outside
this model (its payload is abstracted as `[]`); the branch is dead in this
revision because `createSessionState` sets
`headlessTerm = ENABLE_HEADLESS_SNAPSHOT ? ... : null` and
`ENABLE_HEADLESS_SNAPSHOT = false`. -/
def attachFrames (headlessTerm : Bool) (s : SessionRing) : List (Nat × List Nat) :=
  (if headlessTerm then [(MsgType.SNAPSHOT, ([] : List Nat))]
   else if (outputBuffer s).length > 0 then [(MsgType.REPLAY, outputBuffer s)]
   else [])
  ++ [(MsgType.RECONNECTED, ([] : List Nat))]

/-! ## Outgoing batching (server.ts: `flushBatch` in `handleSshAuth`) -/

/-- The frames one `flushBatch` invocation sends, given the accumulated
`batchChunks` (socket assumed open):

```ts
if (batchChunks.length === 0 || !session) return
const combined = batchChunks.length === 1 ? batchChunks[0] : Buffer.concat(batchChunks)
batchChunks = []
if (session.ws?.readyState === WebSocket.OPEN) {
  session.ws.send(encodeFrame(MsgType.SSH_DATA, combined))
}
```

A combined payload longer than 65535 bytes makes `encodeFrame` throw
inside `writeUInt16LE` (modelled: `encodeFrame = none`), so no frame at
all is sent for that batch; there is no chunking. -/
def flushBatchFrames (batchChunks : List (List Nat)) : List (List Nat) :=
  if batchChunks.length = 0 then []
  else
    match encodeFrame MsgType.SSH_DATA batchChunks.flatten with
    | some frame => [frame]
    | none => []

/-! ## DATA-frame forwarding and backpressure
(server.ts: `MsgType.DATA` case + `writeToSession`; previous revision
part_004: `MsgType.DATA` case) -/

/-- Events a connection handler observes that are relevant to DATA-frame
flow control: an inbound `DATA` frame (tagged with the `Bool` the backend
`stream.write` returns for it — `false` means the internal buffer did not
accept without pressure) and the backend's `drain` event. -/
inductive ConnEvent where
  | dataFrame (writeAccepted : Bool)
  | drain
deriving DecidableEq, Repr

/-- Per-socket flow-control state: whether `ws.pause()` is in effect
(while paused the ws library delivers no further `message` events, so no
forwarding happens). -/
structure HandlerState where
  paused : Bool
deriving DecidableEq, Repr

/-- One event step of the latest revision's handler.  Its `MsgType.DATA`
case is

```ts
const dataSession = tabId ? sessions.get(tabId) : undefined
if (dataSession) { writeToSession(dataSession, frame.payload); dataSession.lastActivity = Date.now() }
```

and `writeToSession` runs `session.stream.write(payload)` discarding the
returned `Bool`; `ws.pause()` is never invoked and no `drain` listener is
registered.  Returns the new state and whether the frame was forwarded to
the backend (session assumed present, stream writable). -/
def dataStepCurrent (st : HandlerState) : ConnEvent → HandlerState × Bool
  | .dataFrame _ => if st.paused then (st, false) else (st, true)
  | .drain => (st, false)

/-- One event step of the previous revision's (part_004) handler, whose
`MsgType.DATA` case reads the result of `stream.write`:

```ts
const canContinue = dataSession.stream.write(frame.payload)
if (!canContinue) { ws.pause(); dataSession.stream.once('drain', () => ws.resume()) }
```
-/
def dataStepPrev (st : HandlerState) : ConnEvent → HandlerState × Bool
  | .dataFrame accepted =>
      if st.paused then (st, false)
      else ({ paused := !accepted }, true)
  | .drain => ({ paused := false }, false)

/-- Run a handler over an event list, collecting the forwarded flag of
each event. -/
def runSteps (step : HandlerState → ConnEvent → HandlerState × Bool) :
    HandlerState → List ConnEvent → List Bool
  | _, [] => []
  | st, e :: es =>
      let r := step st e
      r.2 :: runSteps step r.1 es

/-! ## AUTH handling and capacity (server.ts: `handleAuth`) -/

/-- The reply `handleAuth` sends (distinguishing the two `ERROR` payloads
from `CONNECTED`). -/
inductive AuthReply where
  | errorCapacity
  | errorBackend
  | connected
deriving DecidableEq, Repr

/-- `Map.prototype.set` on an association-list registry: replaces the
value of an existing key, otherwise appends a new entry. -/
def mapSet (m : List (String × Nat)) (k : String) (v : Nat) : List (String × Nat) :=
  if m.any (fun p => p.1 == k) then
    m.map (fun p => if p.1 == k then (k, v) else p)
  else m ++ [(k, v)]

/-- Outcome of one AUTH frame: the session registry afterwards and the
frame type sent back. -/
structure AuthOutcome where
  registry : List (String × Nat)
  reply : AuthReply
deriving DecidableEq, Repr

/-- `handleAuth` (latest revision) together with the `MsgType.AUTH` case
that invokes it:

```ts
if (sessions.size >= MAX_TOTAL_SESSIONS) {
  ws.send(encodeJsonFrame(MsgType.ERROR, { message: 'Server is at maximum session capacity...' }))
  return
}
// handleSshAuth / handleLocalAuth: validate + connect the backend; on
// success: onReady(session)  — which runs  sessions.set(tabId, session)
// — and the CONNECTED frame is sent; on any failure an ERROR frame.
```

`backendOk` abstracts the backend bootstrap (credential validation,
private-address screening, transport connect) succeeding; the stored
session value is opaque (a `Nat`).  The key point mirrored from the
source: no branch inspects whether `tabId` is already present in the
registry. -/
def handleAuth (registry : List (String × Nat)) (tabId : String) (newSession : Nat)
    (backendOk : Bool) : AuthOutcome :=
  if registry.length ≥ MAX_TOTAL_SESSIONS then ⟨registry, .errorCapacity⟩
  else if backendOk then ⟨mapSet registry tabId newSession, .connected⟩
  else ⟨registry, .errorBackend⟩

/-- The number of registry entries belonging to a given client — the
claim-side notion of a per-client session count.  The server itself keeps
no such count: the session value (modelled as the client id here) never
influences `handleAuth`'s control flow, and `MAX_SESSIONS_PER_IP` is
declared in the Config section but referenced nowhere else. -/
def perClientCount (registry : List (String × Nat)) (client : Nat) : Nat :=
  (registry.filter (fun p => p.2 == client)).length

/-! ## Session expiry sweep (server.ts: the 30-second `setInterval`) -/

/-- The per-session state the sweep can observe: whether a WebSocket is
currently attached (`ws !== null`) and the `lastActivity` timestamp. -/
structure SweepSession where
  attached : Bool
  lastActivity : Nat
deriving DecidableEq, Repr

/-- The expiry sweep body:

```ts
const now = Date.now()
for (const [tabId, session] of sessions) {
  if (now - session.lastActivity > SESSION_TIMEOUT_MS) {
    closeSession(tabId, session)   // tears down the backend, sessions.delete(tabId)
  }
}
```

Only `lastActivity` is inspected; `session.ws` is not.  (JS subtraction
would be negative for a future `lastActivity`, failing the `>` test just
as truncated `Nat` subtraction does.) -/
def expireSweep (now : Nat) (sessions : List (String × SweepSession)) :
    List (String × SweepSession) :=
  sessions.filter (fun p => ! decide (now - p.2.lastActivity > SESSION_TIMEOUT_MS))

/-! # Theorems -/

/-! ## Codec lemmas -/

theorem encodeFrame_eq_some (type : Nat) (payload : List Nat)
    (hty : type ≤ 255) (hp : payload.length ≤ 65535) :
    encodeFrame type payload =
      some (type :: payload.length % 256 :: payload.length / 256 :: payload) := by
  simp [encodeFrame, hty, hp]

theorem readUInt16LE_len (n : Nat) (type : Nat) (rest : List Nat) :
    readUInt16LE (type :: n % 256 :: n / 256 :: rest) 1 = n := by
  simp [readUInt16LE, List.getD]
  omega

/-- C2 (frame codec round-trip).  For every one-byte type and every payload
of at most 65535 bytes, decoding the encoding returns exactly the same type
and payload. -/
theorem frame_roundtrip (type : Nat) (payload : List Nat)
    (hty : type ≤ 255) (hp : payload.length ≤ 65535) :
    (encodeFrame type payload).bind decodeFrame = some ⟨type, payload⟩ := by
  rw [encodeFrame_eq_some type payload hty hp, Option.some_bind]
  unfold decodeFrame
  simp only [List.length_cons, readUInt16LE_len]
  rw [if_neg (by omega), if_neg (by omega)]
  simp [readUInt8, List.getD]

/-- Witness for C2 at type `0x13` and payload `[1, 2, 3]`. -/
theorem frame_roundtrip_witness :
    (encodeFrame MsgType.SSH_DATA [1, 2, 3]).bind decodeFrame
      = some ⟨MsgType.SSH_DATA, [1, 2, 3]⟩ :=
  frame_roundtrip MsgType.SSH_DATA [1, 2, 3] (by decide) (by decide)

/-- C3 (truncation safety).  For every valid encoded frame, decoding any
truncation of it — to fewer than 3 bytes, or to a length strictly between
the header and the full declared length — yields `none` (the model of the
`null` return; `decodeFrame` is a total function, so no exception can be
raised). -/
theorem frame_truncation_safe (type : Nat) (payload : List Nat) (k : Nat)
    (hty : type ≤ 255) (hp : payload.length ≤ 65535) (hk : k < 3 + payload.length) :
    (encodeFrame type payload).map (fun f => decodeFrame (f.take k)) = some none := by
  rw [encodeFrame_eq_some type payload hty hp, Option.map_some']
  rcases Nat.lt_or_ge k 3 with h3 | h3
  · -- fewer than 3 bytes survive: the header guard fires
    have hlen : (List.take k
        (type :: payload.length % 256 :: payload.length / 256 :: payload)).length < 3 := by
      simp [List.length_take]
      omega
    unfold decodeFrame
    rw [if_pos hlen]
  · -- between 3 and 3 + payLen (exclusive): the length guard fires
    obtain ⟨m, rfl⟩ : ∃ m, k = m + 3 := ⟨k - 3, by omega⟩
    have hm : m < payload.length := by omega
    simp only [List.take_succ_cons]
    unfold decodeFrame
    rw [if_neg (by simp only [List.length_cons, List.length_take]; omega)]
    simp only [readUInt16LE_len]
    rw [if_pos (by simp only [List.length_cons, List.length_take]; omega)]

/-- Witness for C3: the frame for type `0x13`, payload `[7, 8, 9, 10]`,
truncated to 5 bytes (between the 3-byte header and the full 7). -/
theorem frame_truncation_safe_witness :
    (encodeFrame MsgType.SSH_DATA [7, 8, 9, 10]).map
        (fun f => decodeFrame (f.take 5)) = some none :=
  frame_truncation_safe MsgType.SSH_DATA [7, 8, 9, 10] 5
    (by decide) (by decide) (by decide)

/-- C10 (decode tolerates trailing bytes).  For every input of length ≥ 3
whose declared payload length fits in the available bytes, `decodeFrame`
succeeds, its payload is exactly the declared number of bytes immediately
after the header, and any trailing bytes beyond the declared length are
ignored (they appear neither in the payload nor cause a rejection). -/
theorem decodeFrame_trailing (raw : List Nat)
    (h3 : 3 ≤ raw.length) (hfit : 3 + readUInt16LE raw 1 ≤ raw.length) :
    decodeFrame raw = some ⟨readUInt8 raw 0, (raw.drop 3).take (readUInt16LE raw 1)⟩
      ∧ ((raw.drop 3).take (readUInt16LE raw 1)).length = readUInt16LE raw 1 := by
  constructor
  · unfold decodeFrame
    rw [if_neg (by omega), if_neg (by omega)]
  · simp [List.length_take, List.length_drop]
    omega

/-- Witness for C10: a 3-byte payload declared, two trailing bytes present
and ignored. -/
theorem decodeFrame_trailing_witness :
    decodeFrame [9, 3, 0, 100, 101, 102, 200, 201]
        = some ⟨readUInt8 [9, 3, 0, 100, 101, 102, 200, 201] 0,
            (([9, 3, 0, 100, 101, 102, 200, 201] : List Nat).drop 3).take
              (readUInt16LE [9, 3, 0, 100, 101, 102, 200, 201] 1)⟩
      ∧ ((([9, 3, 0, 100, 101, 102, 200, 201] : List Nat).drop 3).take
            (readUInt16LE [9, 3, 0, 100, 101, 102, 200, 201] 1)).length
          = readUInt16LE [9, 3, 0, 100, 101, 102, 200, 201] 1 :=
  decodeFrame_trailing [9, 3, 0, 100, 101, 102, 200, 201] (by decide) (by decide)

/-! ## Ring buffer: the write path is correct -/

theorem appendLoop_nil (fuel : Nat) (s : SessionRing) : appendLoop fuel s [] = s := by
  cases fuel <;> rfl

theorem appendLoop_succ (fuel : Nat) (s : SessionRing) (b : Nat) (t : List Nat) :
    appendLoop (fuel + 1) s (b :: t)
      = appendLoop fuel (appendStep s (b :: t)).1 (appendStep s (b :: t)).2 := rfl

theorem appendStep_fst (s : SessionRing) (rest : List Nat) :
    (appendStep s rest).1 =
      ⟨s.ringBuf.take s.ringOffset
          ++ rest.take (min (MAX_OUTPUT_BUFFER - s.ringOffset) rest.length)
          ++ s.ringBuf.drop
              (s.ringOffset + min (MAX_OUTPUT_BUFFER - s.ringOffset) rest.length),
        (s.ringOffset + min (MAX_OUTPUT_BUFFER - s.ringOffset) rest.length)
          % MAX_OUTPUT_BUFFER,
        if ((s.ringOffset + min (MAX_OUTPUT_BUFFER - s.ringOffset) rest.length)
              % MAX_OUTPUT_BUFFER) == 0 then true
        else s.ringFull⟩ := rfl

theorem appendStep_snd (s : SessionRing) (rest : List Nat) :
    (appendStep s rest).2
      = rest.drop (min (MAX_OUTPUT_BUFFER - s.ringOffset) rest.length) := rfl

theorem snapshotRing_eq (s : SessionRing) :
    snapshotRing s =
      if s.ringFull then s.ringBuf.drop s.ringOffset ++ s.ringBuf.take s.ringOffset
      else s.ringBuf.take s.ringOffset := by
  rcases s with ⟨buf, off, full⟩
  cases full
  · by_cases h : off = 0 <;> simp [snapshotRing, h]
  · simp [snapshotRing]

theorem snapshotRing_mk (buf : List Nat) (off : Nat) (full : Bool) :
    snapshotRing ⟨buf, off, full⟩
      = if full then buf.drop off ++ buf.take off else buf.take off :=
  snapshotRing_eq _

theorem snapshotRing_length_le (s : SessionRing)
    (hbuf : s.ringBuf.length = MAX_OUTPUT_BUFFER)
    (hoff : s.ringOffset < MAX_OUTPUT_BUFFER) :
    (snapshotRing s).length ≤ MAX_OUTPUT_BUFFER := by
  rw [snapshotRing_eq]
  split
  · rw [List.length_append, List.length_drop, List.length_take]
    omega
  · rw [List.length_take]
    omega

theorem lastN_of_length_le (n : Nat) (l : List Nat) (h : l.length ≤ n) :
    lastN n l = l := by
  unfold lastN
  rw [Nat.sub_eq_zero_of_le h, List.drop_zero]

theorem lastN_drop (n k : Nat) (l : List Nat) (h : n + k ≤ l.length) :
    lastN n (l.drop k) = lastN n l := by
  unfold lastN
  rw [List.length_drop, List.drop_drop]
  congr 1
  omega

theorem lastN_append_left (n : Nat) (a b : List Nat) :
    lastN n (lastN n a ++ b) = lastN n (a ++ b) := by
  by_cases h : a.length ≤ n
  · rw [lastN_of_length_le _ _ h]
  · have hd : lastN n a ++ b = (a ++ b).drop (a.length - n) := by
      unfold lastN
      rw [List.drop_append_of_le_length (by omega)]
    rw [hd, lastN_drop _ _ _ (by rw [List.length_append]; omega)]

theorem appendStep_inv (s : SessionRing) (rest : List Nat)
    (hbuf : s.ringBuf.length = MAX_OUTPUT_BUFFER)
    (hoff : s.ringOffset < MAX_OUTPUT_BUFFER) :
    (appendStep s rest).1.ringBuf.length = MAX_OUTPUT_BUFFER
      ∧ (appendStep s rest).1.ringOffset < MAX_OUTPUT_BUFFER := by
  rw [appendStep_fst]
  refine ⟨?_, Nat.mod_lt _ (by decide)⟩
  dsimp only
  rw [List.length_append, List.length_append, List.length_take, List.length_take,
    List.length_drop]
  omega

theorem appendStep_rest_lt (s : SessionRing) (rest : List Nat) (hne : rest ≠ [])
    (hoff : s.ringOffset < MAX_OUTPUT_BUFFER) :
    (appendStep s rest).2.length < rest.length := by
  rw [appendStep_snd, List.length_drop]
  have := List.length_pos.mpr hne
  omega

/-- One loop iteration preserves the reference value: the last
`MAX_OUTPUT_BUFFER` bytes of "current chronological contents ++ bytes
still to copy" are unchanged by the block copy. -/
theorem appendStep_snapshot (s : SessionRing) (rest : List Nat) (hne : rest ≠ [])
    (hbuf : s.ringBuf.length = MAX_OUTPUT_BUFFER)
    (hoff : s.ringOffset < MAX_OUTPUT_BUFFER) :
    lastN MAX_OUTPUT_BUFFER (snapshotRing (appendStep s rest).1 ++ (appendStep s rest).2)
      = lastN MAX_OUTPUT_BUFFER (snapshotRing s ++ rest) := by
  have hrest : 0 < rest.length := List.length_pos.mpr hne
  rw [appendStep_fst, appendStep_snd]
  set tc := min (MAX_OUTPUT_BUFFER - s.ringOffset) rest.length with htc
  have htc1 : 1 ≤ tc := by omega
  have htcr : tc ≤ rest.length := by omega
  have htcc : s.ringOffset + tc ≤ MAX_OUTPUT_BUFFER := by omega
  have hA : (s.ringBuf.take s.ringOffset).length = s.ringOffset := by
    rw [List.length_take]
    omega
  have hblk : (rest.take tc).length = tc := by
    rw [List.length_take]
    omega
  have hAB : (s.ringBuf.take s.ringOffset ++ rest.take tc).length = s.ringOffset + tc := by
    rw [List.length_append, hA, hblk]
  have hD : (s.ringBuf.drop s.ringOffset).length = MAX_OUTPUT_BUFFER - s.ringOffset := by
    rw [List.length_drop, hbuf]
  have hblkdrop : rest.take tc ++ rest.drop tc = rest := List.take_append_drop tc rest
  have h5 : (s.ringBuf.take s.ringOffset ++ rest.take tc) ++ rest.drop tc
      = s.ringBuf.take s.ringOffset ++ rest := by
    rw [List.append_assoc, hblkdrop]
  by_cases hwrap : s.ringOffset + tc = MAX_OUTPUT_BUFFER
  · -- the copy ends exactly at capacity: offset wraps to 0, ringFull set
    have hC : s.ringBuf.drop (s.ringOffset + tc) = [] := by
      rw [hwrap, ← hbuf, List.drop_length]
    have hmod : (s.ringOffset + tc) % MAX_OUTPUT_BUFFER = 0 := by
      rw [hwrap, Nat.mod_self]
    rw [hC, hmod, List.append_nil,
      if_pos (show ((0 : Nat) == 0) = true from rfl), snapshotRing_mk,
      if_pos rfl, List.drop_zero, List.take_zero, List.append_nil]
    rw [snapshotRing_eq]
    cases hfull : s.ringFull
    · rw [if_neg (by simp)]
      -- both sides are literally the same list
      rw [h5]
    · rw [if_pos rfl]
      have hkey : ((s.ringBuf.drop s.ringOffset ++ s.ringBuf.take s.ringOffset) ++ rest).drop tc
          = s.ringBuf.take s.ringOffset ++ rest := by
        rw [List.append_assoc, List.drop_left' (by rw [hD]; omega)]
      rw [h5, ← hkey]
      refine lastN_drop _ _ _ ?_
      rw [List.length_append, List.length_append, hD, hA]
      omega
  · -- no wrap: offset advances to ringOffset + toCopy, ringFull unchanged
    have hlt : s.ringOffset + tc < MAX_OUTPUT_BUFFER := by omega
    have hmod : (s.ringOffset + tc) % MAX_OUTPUT_BUFFER = s.ringOffset + tc :=
      Nat.mod_eq_of_lt hlt
    have hne0 : ((s.ringOffset + tc) == 0) = false := by
      rw [beq_eq_false_iff_ne]
      omega
    rw [hmod, hne0, if_neg (by simp), snapshotRing_mk]
    have htake : ((s.ringBuf.take s.ringOffset ++ rest.take tc)
        ++ s.ringBuf.drop (s.ringOffset + tc)).take (s.ringOffset + tc)
        = s.ringBuf.take s.ringOffset ++ rest.take tc :=
      List.take_left' hAB
    have hdropbuf : ((s.ringBuf.take s.ringOffset ++ rest.take tc)
        ++ s.ringBuf.drop (s.ringOffset + tc)).drop (s.ringOffset + tc)
        = s.ringBuf.drop (s.ringOffset + tc) :=
      List.drop_left' hAB
    rw [snapshotRing_eq]
    cases hfull : s.ringFull
    · rw [if_neg (by simp), if_neg (by simp), htake, h5]
    · rw [if_pos rfl, if_pos rfl, htake, hdropbuf]
      have h6 : (s.ringBuf.drop (s.ringOffset + tc)
            ++ (s.ringBuf.take s.ringOffset ++ rest.take tc)) ++ rest.drop tc
          = s.ringBuf.drop (s.ringOffset + tc)
            ++ (s.ringBuf.take s.ringOffset ++ rest) := by
        rw [List.append_assoc, List.append_assoc, hblkdrop]
      have hkey : ((s.ringBuf.drop s.ringOffset ++ s.ringBuf.take s.ringOffset) ++ rest).drop tc
          = s.ringBuf.drop (s.ringOffset + tc)
            ++ (s.ringBuf.take s.ringOffset ++ rest) := by
        rw [List.append_assoc, List.drop_append_of_le_length (by rw [hD]; omega),
          List.drop_drop]
      rw [h6, ← hkey]
      refine lastN_drop _ _ _ ?_
      rw [List.length_append, List.length_append, hD, hA]
      omega

theorem appendLoop_inv : ∀ (n : Nat) (rest : List Nat) (s : SessionRing) (fuel : Nat),
    rest.length ≤ n →
    s.ringBuf.length = MAX_OUTPUT_BUFFER → s.ringOffset < MAX_OUTPUT_BUFFER →
    (appendLoop fuel s rest).ringBuf.length = MAX_OUTPUT_BUFFER
      ∧ (appendLoop fuel s rest).ringOffset < MAX_OUTPUT_BUFFER := by
  intro n
  induction n with
  | zero =>
      intro rest s fuel hn hbuf hoff
      have hnil : rest = [] := List.eq_nil_of_length_eq_zero (by omega)
      subst hnil
      rw [appendLoop_nil]
      exact ⟨hbuf, hoff⟩
  | succ m ih =>
      intro rest s fuel hn hbuf hoff
      cases rest with
      | nil =>
          rw [appendLoop_nil]
          exact ⟨hbuf, hoff⟩
      | cons b t =>
          cases fuel with
          | zero => exact ⟨hbuf, hoff⟩
          | succ f =>
              rw [appendLoop_succ]
              obtain ⟨h1, h2⟩ := appendStep_inv s (b :: t) hbuf hoff
              have h3 := appendStep_rest_lt s (b :: t) (by simp) hoff
              have hlen : (b :: t).length = t.length + 1 := rfl
              exact ih _ _ f (by omega) h1 h2

theorem appendLoop_snapshot : ∀ (n : Nat) (rest : List Nat) (s : SessionRing) (fuel : Nat),
    rest.length ≤ n → rest.length ≤ fuel →
    s.ringBuf.length = MAX_OUTPUT_BUFFER → s.ringOffset < MAX_OUTPUT_BUFFER →
    snapshotRing (appendLoop fuel s rest)
      = lastN MAX_OUTPUT_BUFFER (snapshotRing s ++ rest) := by
  intro n
  induction n with
  | zero =>
      intro rest s fuel hn _ hbuf hoff
      have hnil : rest = [] := List.eq_nil_of_length_eq_zero (by omega)
      subst hnil
      rw [appendLoop_nil, List.append_nil,
        lastN_of_length_le _ _ (snapshotRing_length_le s hbuf hoff)]
  | succ m ih =>
      intro rest s fuel hn hfuel hbuf hoff
      cases rest with
      | nil =>
          rw [appendLoop_nil, List.append_nil,
            lastN_of_length_le _ _ (snapshotRing_length_le s hbuf hoff)]
      | cons b t =>
          cases fuel with
          | zero => exact absurd hfuel (by simp)
          | succ f =>
              rw [appendLoop_succ]
              obtain ⟨h1, h2⟩ := appendStep_inv s (b :: t) hbuf hoff
              have h3 := appendStep_rest_lt s (b :: t) (by simp) hoff
              have hlen : (b :: t).length = t.length + 1 := rfl
              rw [ih (appendStep s (b :: t)).2 (appendStep s (b :: t)).1 f
                (by omega) (by omega) h1 h2]
              exact appendStep_snapshot s (b :: t) (by simp) hbuf hoff

theorem appendOutput_inv (s : SessionRing) (chunk : List Nat)
    (hbuf : s.ringBuf.length = MAX_OUTPUT_BUFFER)
    (hoff : s.ringOffset < MAX_OUTPUT_BUFFER) :
    (appendOutput s chunk).ringBuf.length = MAX_OUTPUT_BUFFER
      ∧ (appendOutput s chunk).ringOffset < MAX_OUTPUT_BUFFER :=
  appendLoop_inv chunk.length chunk s chunk.length le_rfl hbuf hoff

theorem appendOutput_snapshot (s : SessionRing) (chunk : List Nat)
    (hbuf : s.ringBuf.length = MAX_OUTPUT_BUFFER)
    (hoff : s.ringOffset < MAX_OUTPUT_BUFFER) :
    snapshotRing (appendOutput s chunk)
      = lastN MAX_OUTPUT_BUFFER (snapshotRing s ++ chunk) :=
  appendLoop_snapshot chunk.length chunk s chunk.length le_rfl le_rfl hbuf hoff

theorem createRing_ringBuf_length : createRing.ringBuf.length = MAX_OUTPUT_BUFFER :=
  List.length_replicate MAX_OUTPUT_BUFFER 0

theorem snapshotRing_createRing : snapshotRing createRing = [] := rfl

theorem foldl_appendOutput_snapshot (chunks : List (List Nat)) :
    ∀ s : SessionRing, s.ringBuf.length = MAX_OUTPUT_BUFFER →
    s.ringOffset < MAX_OUTPUT_BUFFER →
    snapshotRing (chunks.foldl appendOutput s)
      = lastN MAX_OUTPUT_BUFFER (snapshotRing s ++ chunks.flatten) := by
  induction chunks with
  | nil =>
      intro s hbuf hoff
      rw [List.foldl_nil, List.flatten_nil, List.append_nil,
        lastN_of_length_le _ _ (snapshotRing_length_le s hbuf hoff)]
  | cons c cs ih =>
      intro s hbuf hoff
      obtain ⟨h1, h2⟩ := appendOutput_inv s c hbuf hoff
      rw [List.foldl_cons, ih (appendOutput s c) h1 h2,
        appendOutput_snapshot s c hbuf hoff, lastN_append_left,
        List.flatten_cons, List.append_assoc]

/-- Ring-buffer write-path correctness (what C1 intends, read through the
live ring state): for every sequence of `appendOutput` calls on a fresh
session, the chronological contents of the ring — `[0, writeOffset)` when
never wrapped, `[writeOffset, capacity) ++ [0, writeOffset)` once
wrapped — are exactly the last `MAX_OUTPUT_BUFFER` bytes appended (all of
them while fewer).  The server's `outputBuffer` getter, however, does not
perform this read (see `outputBuffer_getter_stale`). -/
theorem ring_append_correct (chunks : List (List Nat)) :
    snapshotRing (chunks.foldl appendOutput createRing)
      = lastN MAX_OUTPUT_BUFFER chunks.flatten := by
  rw [foldl_appendOutput_snapshot chunks createRing createRing_ringBuf_length
    (by decide), snapshotRing_createRing, List.nil_append]

/-! ## C1: the `outputBuffer` getter is broken -/

/-- The getter's result never depends on the session state: it always
takes the never-wrapped, offset-zero branch. -/
theorem outputBuffer_eq_nil (s : SessionRing) : outputBuffer s = [] := rfl

/-- C1 (ring buffer correctness) fails: after appending
`MAX_OUTPUT_BUFFER + 1` bytes of `0x41` to a fresh session — a total
exceeding the 200 KB capacity — reading `outputBuffer` yields the empty
byte string, whereas the last-`capacity`-bytes-appended value the claim
requires is nonempty (`ring_append_correct` shows the ring state itself
holds exactly that value; only the getter fails to read it). -/
theorem outputBuffer_getter_stale :
    outputBuffer (appendOutput createRing (List.replicate (MAX_OUTPUT_BUFFER + 1) 0x41)) = []
      ∧ (List.replicate (MAX_OUTPUT_BUFFER + 1) 0x41).drop
          ((MAX_OUTPUT_BUFFER + 1) - MAX_OUTPUT_BUFFER) ≠ ([] : List Nat) := by
  refine ⟨outputBuffer_eq_nil _, fun h => ?_⟩
  have hlen := congrArg List.length h
  simp only [List.length_drop, List.length_replicate, List.length_nil] at hlen
  rw [MAX_OUTPUT_BUFFER] at hlen
  omega

/-! ## C5: reconnect sends no replay data -/

/-- C5 (reconnect ordering) fails: a session whose backend produced one
byte (`0x41`) while detached — the append demonstrably advanced the ring
write offset — is reattached, and the server sends only `RECONNECTED`:
no `REPLAY` (and no `SNAPSHOT`) frame precedes it, because the broken
`outputBuffer` getter reports an empty buffer. -/
theorem reattach_replay_missing :
    attachFrames ENABLE_HEADLESS_SNAPSHOT (appendOutput createRing [0x41])
        = [(MsgType.RECONNECTED, ([] : List Nat))]
      ∧ (appendOutput createRing [0x41]).ringOffset = 1 :=
  ⟨rfl, rfl⟩

/-! ## C4: oversized output is not chunked -/

/-- C4 fails as stated: a batch whose combined live output is 65536 bytes
(> 65535) is not chunked into multiple `SSH_DATA` frames — `flushBatch`
attempts a single oversized `encodeFrame`, the encode fails, and no frame
is sent at all. -/
theorem oversized_batch_not_chunked :
    flushBatchFrames [List.replicate 65536 0x41] = []
      ∧ (List.replicate (65536 : Nat) (0x41 : Nat)).length > 65535 := by
  constructor
  · unfold flushBatchFrames
    rw [if_neg (by simp only [List.length_cons, List.length_nil]; omega)]
    have hj : ([List.replicate 65536 (0x41 : Nat)] : List (List Nat)).flatten
        = List.replicate 65536 0x41 := by
      simp only [List.flatten_cons, List.flatten_nil, List.append_nil]
    rw [hj]
    have he : encodeFrame MsgType.SSH_DATA (List.replicate 65536 (0x41 : Nat)) = none := by
      unfold encodeFrame
      rw [if_neg (fun hc => by
        have := hc.2
        rw [List.length_replicate] at this
        omega)]
    rw [he]
  · rw [List.length_replicate]
    omega

/-- C4 amended: every frame the server actually sends has a payload of at
most 65535 bytes — but only because `encodeFrame` fails on anything
larger; batched output whose combined length exceeds 65535 bytes is not
chunked, it produces no frame at all. -/
theorem sent_frames_payload_bounded :
    (∀ type payload frame, encodeFrame type payload = some frame → payload.length ≤ 65535)
      ∧ (∀ batchChunks : List (List Nat),
          65535 < batchChunks.flatten.length → flushBatchFrames batchChunks = []) := by
  constructor
  · intro t p f h
    unfold encodeFrame at h
    split at h
    next hcond => exact hcond.2
    next => cases h
  · intro chunks hlen
    unfold flushBatchFrames
    split
    · rfl
    · have he : encodeFrame MsgType.SSH_DATA chunks.flatten = none := by
        unfold encodeFrame
        rw [if_neg (fun hc => absurd hc.2 (by omega))]
      rw [he]

/-- Witness for C4 amended: a 3-byte payload is within the bound, and a
65536-byte batch yields no frames. -/
theorem sent_frames_payload_bounded_witness :
    ([1, 2, 3] : List Nat).length ≤ 65535
      ∧ flushBatchFrames [List.replicate 65536 0x41] = [] := by
  refine ⟨sent_frames_payload_bounded.1 19 [1, 2, 3] [19, 3, 0, 1, 2, 3] (by decide),
    sent_frames_payload_bounded.2 [List.replicate 65536 0x41] ?_⟩
  simp only [List.flatten_cons, List.flatten_nil, List.append_nil, List.length_replicate]
  omega

/-! ## C6: backpressure -/

/-- C6 (backpressure) fails on the latest revision: after a `DATA` frame
whose backend `write()` returned `false`, a second `DATA` frame arriving
with no intervening `drain` is still forwarded — the handler never pauses
the socket.  (The previous revision, part_004, stops forwarding as the
claim describes.) -/
theorem data_forwarding_ignores_backpressure :
    runSteps dataStepCurrent ⟨false⟩ [.dataFrame false, .dataFrame true] = [true, true]
      ∧ runSteps dataStepPrev ⟨false⟩ [.dataFrame false, .dataFrame true] = [true, false] :=
  ⟨rfl, rfl⟩

/-- Supporting fact: the part_004 handler does satisfy the claim — once a
write is refused (socket paused), no later `DATA` frame is forwarded until
a `drain` event occurs. -/
theorem dataStepPrev_pauses_until_drain (es : List ConnEvent)
    (hnd : ConnEvent.drain ∉ es) :
    runSteps dataStepPrev ⟨true⟩ es = List.replicate es.length false := by
  induction es with
  | nil => rfl
  | cons e es ih =>
      cases e with
      | dataFrame a =>
          have h1 : runSteps dataStepPrev ⟨true⟩ (ConnEvent.dataFrame a :: es)
              = false :: runSteps dataStepPrev ⟨true⟩ es := rfl
          rw [h1, ih (fun h => hnd (List.mem_cons_of_mem _ h))]
          rfl
      | drain => exact absurd (List.mem_cons_self _ _) hnd

/-- Witness for the part_004 supporting fact on a concrete drain-free
event list. -/
theorem dataStepPrev_pauses_until_drain_witness :
    runSteps dataStepPrev ⟨true⟩ [ConnEvent.dataFrame true, ConnEvent.dataFrame false]
      = List.replicate 2 false :=
  dataStepPrev_pauses_until_drain [ConnEvent.dataFrame true, ConnEvent.dataFrame false]
    (by decide)

/-! ## C7: duplicate AUTH -/

/-- C7 fails as stated: an AUTH frame whose tab key `t1` is already in the
registry is not rejected — the backend session is created, the reply is
`CONNECTED`, and the registry entry for `t1` is overwritten with the new
session (orphaning the old backend). -/
theorem duplicate_auth_not_rejected :
    handleAuth [(("t1" : String), 0)] ("t1") 1 true
        = ⟨[(("t1" : String), 1)], AuthReply.connected⟩
      ∧ AuthReply.connected ≠ AuthReply.errorCapacity
      ∧ AuthReply.connected ≠ AuthReply.errorBackend := by
  refine ⟨?_, by decide, by decide⟩
  decide

/-- C7 amended: the handler performs no duplicate-key check.  Below the
global capacity limit, an AUTH behaves identically whether or not the key
already exists: backend success stores the session under the key —
`Map.set`, overwriting any existing entry — and replies `CONNECTED`;
backend failure replies with an error and leaves the registry unchanged. -/
theorem auth_no_duplicate_check (registry : List (String × Nat)) (tabId : String)
    (v : Nat) (hcap : registry.length < MAX_TOTAL_SESSIONS) :
    handleAuth registry tabId v true = ⟨mapSet registry tabId v, AuthReply.connected⟩
      ∧ handleAuth registry tabId v false = ⟨registry, AuthReply.errorBackend⟩ := by
  constructor
  · unfold handleAuth
    rw [if_neg (by omega)]
    rfl
  · unfold handleAuth
    rw [if_neg (by omega)]
    rfl

/-- Witness for C7 amended at a one-entry registry and a fresh key. -/
theorem auth_no_duplicate_check_witness :
    handleAuth [(("a" : String), 0)] ("b") 5 true
        = ⟨mapSet [(("a" : String), 0)] ("b") 5, AuthReply.connected⟩
      ∧ handleAuth [(("a" : String), 0)] ("b") 5 false
        = ⟨[(("a" : String), 0)], AuthReply.errorBackend⟩ :=
  auth_no_duplicate_check [(("a" : String), 0)] ("b") 5 (by decide)

/-! ## C8: capacity limits -/

/-- C8 fails as stated: with five sessions all held by client `7` — the
declared `MAX_SESSIONS_PER_IP` — and the global count below
`MAX_TOTAL_SESSIONS`, a sixth AUTH from client `7` is not refused: session
creation proceeds and `CONNECTED` is sent. -/
theorem per_client_capacity_unenforced :
    (handleAuth [(("t1" : String), 7), (("t2" : String), 7), (("t3" : String), 7),
        (("t4" : String), 7), (("t5" : String), 7)] ("t6") 7 true).reply
        = AuthReply.connected
      ∧ perClientCount [(("t1" : String), 7), (("t2" : String), 7), (("t3" : String), 7),
          (("t4" : String), 7), (("t5" : String), 7)] 7 = MAX_SESSIONS_PER_IP
      ∧ ([(("t1" : String), 7), (("t2" : String), 7), (("t3" : String), 7),
          (("t4" : String), 7), (("t5" : String), 7)] : List (String × Nat)).length
          < MAX_TOTAL_SESSIONS :=
  ⟨by decide, by decide, by decide⟩

/-- C8 amended: session creation is refused with the capacity error
exactly when the global maximum (`MAX_TOTAL_SESSIONS = 20`) is reached,
and the refusal leaves the registry — hence every existing session —
untouched; the per-client limit `MAX_SESSIONS_PER_IP` is never
enforced. -/
theorem capacity_check_global_only (registry : List (String × Nat)) (tabId : String)
    (v : Nat) (backendOk : Bool) :
    ((handleAuth registry tabId v backendOk).reply = AuthReply.errorCapacity
        ↔ registry.length ≥ MAX_TOTAL_SESSIONS)
      ∧ (registry.length ≥ MAX_TOTAL_SESSIONS →
          handleAuth registry tabId v backendOk = ⟨registry, AuthReply.errorCapacity⟩) := by
  by_cases h : registry.length ≥ MAX_TOTAL_SESSIONS
  · unfold handleAuth
    rw [if_pos h]
    exact ⟨⟨fun _ => h, fun _ => rfl⟩, fun _ => rfl⟩
  · unfold handleAuth
    rw [if_neg h]
    refine ⟨⟨fun hr => absurd ?_ h, fun hc => absurd hc h⟩, fun hc => absurd hc h⟩
    cases backendOk with
    | true => exact absurd hr (by simp)
    | false => exact absurd hr (by simp)

/-- Witness for C8 amended at a registry of exactly 20 sessions. -/
theorem capacity_check_global_only_witness :
    handleAuth [(("k01" : String), 0), (("k02" : String), 0), (("k03" : String), 0),
        (("k04" : String), 0), (("k05" : String), 0), (("k06" : String), 0),
        (("k07" : String), 0), (("k08" : String), 0), (("k09" : String), 0),
        (("k10" : String), 0), (("k11" : String), 0), (("k12" : String), 0),
        (("k13" : String), 0), (("k14" : String), 0), (("k15" : String), 0),
        (("k16" : String), 0), (("k17" : String), 0), (("k18" : String), 0),
        (("k19" : String), 0), (("k20" : String), 0)] ("x") 0 true
      = ⟨[(("k01" : String), 0), (("k02" : String), 0), (("k03" : String), 0),
        (("k04" : String), 0), (("k05" : String), 0), (("k06" : String), 0),
        (("k07" : String), 0), (("k08" : String), 0), (("k09" : String), 0),
        (("k10" : String), 0), (("k11" : String), 0), (("k12" : String), 0),
        (("k13" : String), 0), (("k14" : String), 0), (("k15" : String), 0),
        (("k16" : String), 0), (("k17" : String), 0), (("k18" : String), 0),
        (("k19" : String), 0), (("k20" : String), 0)], AuthReply.errorCapacity⟩ :=
  (capacity_check_global_only _ ("x") 0 true).2 (by decide)

/-! ## C9: expiry sweep -/

/-- C9 fails as stated: a session with an attached WebSocket whose idle
time exceeds `SESSION_TIMEOUT_MS` is destroyed by the sweep. -/
theorem attached_session_expired_by_sweep :
    expireSweep 300001 [(("t1" : String), ⟨true, 0⟩)] = []
      ∧ (⟨true, 0⟩ : SweepSession).attached = true
      ∧ 300001 - (⟨true, 0⟩ : SweepSession).lastActivity > SESSION_TIMEOUT_MS :=
  ⟨by decide, rfl, by decide⟩

/-- C9 amended: the sweep keeps a session exactly when its idle time is
within the timeout — whether a WebSocket is attached is irrelevant.
(Attached sessions survive in practice only because inbound DATA, RESIZE
and PING frames refresh `lastActivity`.) -/
theorem sweep_expires_by_idle_time_only (now : Nat)
    (sessions : List (String × SweepSession)) (k : String) (s : SweepSession)
    (hmem : (k, s) ∈ sessions) :
    ((k, s) ∈ expireSweep now sessions ↔ now - s.lastActivity ≤ SESSION_TIMEOUT_MS) := by
  unfold expireSweep
  rw [List.mem_filter]
  simp [hmem]

/-- Witness for C9 amended: an attached-but-fresh session is kept. -/
theorem sweep_expires_by_idle_time_only_witness :
    ((("t1" : String), (⟨true, 400000⟩ : SweepSession))
        ∈ expireSweep 400001 [(("t1" : String), ⟨true, 400000⟩)]
      ↔ 400001 - (⟨true, 400000⟩ : SweepSession).lastActivity ≤ SESSION_TIMEOUT_MS) :=
  sweep_expires_by_idle_time_only 400001 [(("t1" : String), ⟨true, 400000⟩)]
    ("t1") ⟨true, 400000⟩ (by simp)

end WebSSH
